import Mathlib

/-!
Verification development for a document-processing agent consisting of an MCP
file server (file_server.py) exposing list / read / save / index operations
over a sandbox directory, and a LangGraph orchestration loop (legal_agent.py)
that alternates completion-provider calls with sequential tool dispatch.

Shallow-embedding conventions:
* A filesystem path is the list of its components from the filesystem root;
  the sandbox directory `./dados_processos` resolves to `TARGET_DIRECTORY`
  (the working directory is modelled as `/app`).
* The filesystem is an association list from resolved paths to decoded text
  content, kept in directory-iteration order.  Only regular files are
  modelled; symlinks and permissions are below this abstraction.
* pypdf and BeautifulSoup are external collaborators (the spec, section 1,
  declares extraction logic out of scope); they enter the embedding as an
  `Extractors` record, with `none` standing for the library raising an
  exception, which extract_text_raw catches.
* The completion provider and the langchain text splitter are likewise
  parameters of the functions that use them.
* Directories are modelled explicitly (`FS.dirs`), so the exists-check of
  the read path and the open-for-write failure branch of save_document
  (FileNotFoundError / NotADirectoryError / IsADirectoryError caught by its
  except clause) are represented rather than collapsed.
* All string processing is written with structural recursion over character
  lists so that closed instances evaluate inside the kernel.
-/

namespace LegalAgent

/-- Splits a character list at a separator character; the analogue of the
component split used by path resolution and by suffix computation. -/
def splitOnChar (sep : Char) : List Char → List (List Char)
  | [] => [[]]
  | c :: rest =>
    let r := splitOnChar sep rest
    if c = sep then [] :: r
    else
      match r with
      | [] => [[c]]
      | h :: t => (c :: h) :: t

/-- ASCII lowercasing of a string, the model of `str.lower()` on suffixes. -/
def lowerStr (s : String) : String :=
  String.mk (s.data.map Char.toLower)

/-- The resolved sandbox root `./dados_processos` of file_server.py
(TARGET_DIRECTORY, with the working directory modelled as `/app`). -/
def TARGET_DIRECTORY : List String := ["app", "dados_processos"]

/-- One step of POSIX path normalisation: empty and `.` components are
skipped, `..` removes the last component (at the root it is a no-op, as in
`Path.resolve`), anything else is appended. -/
def stepComponent (acc : List String) (c : String) : List String :=
  if c = "" ∨ c = "." then acc
  else if c = ".." then acc.dropLast
  else acc ++ [c]

/-- Model of `(TARGET_DIRECTORY / filename).resolve()`: an absolute filename
replaces the root entirely (pathlib join semantics), otherwise the components
of `filename` are folded onto `root`. -/
def resolve (root : List String) (filename : String) : List String :=
  let start := if filename.data.headD ' ' = '/' then [] else root
  ((splitOnChar '/' filename.data).map String.mk).foldl stepComponent start

/-- Model of `pathlib.Path.suffix` on a bare file name: the final dot
section, empty when there is no dot or the only dot is the leading one. -/
def fileSuffix (name : String) : String :=
  let parts := splitOnChar '.' name.data
  if parts.length ≤ 1 then ""
  else if parts.length = 2 ∧ parts.headD [] = [] then ""
  else String.mk ('.' :: parts.getLastD [])

/-- The lowercased suffix of the last component of a resolved path, the
`file_path.suffix.lower()` of extract_text_raw. -/
def suffixOfPath (p : List String) : String :=
  lowerStr (fileSuffix (p.getLastD ""))

/-- The sandbox-visible filesystem: the regular files as an association list
from resolved path to decoded text content (in directory-iteration order),
plus the existing directories (consulted by the exists-check of the read
path and by the open-for-write error branch of save_document). -/
structure FS where
  files : List (List String × String)
  dirs : List (List String)
deriving DecidableEq

/-- File lookup, the model of opening a path for reading; `none` is a
nonexistent (or non-regular) path. -/
def FS.lookup (fs : FS) (p : List String) : Option String :=
  (fs.files.find? (fun e => e.1 == p)).map (fun e => e.2)

/-- Directory test at a resolved path. -/
def FS.isDir (fs : FS) (p : List String) : Bool :=
  fs.dirs.contains p

/-- Model of `Path.exists()`: true for regular files and for directories. -/
def FS.pathExists (fs : FS) (p : List String) : Bool :=
  (fs.lookup p).isSome || fs.isDir p

/-- Model of `open(path, "w")` succeeding: the parent directory exists and
the target is not itself a directory.  Otherwise the open raises
(FileNotFoundError for a missing parent, NotADirectoryError for a file used
as a directory, IsADirectoryError for a directory target) and the except
branch of save_document reports the error. -/
def FS.writeOk (fs : FS) (p : List String) : Bool :=
  fs.dirs.contains p.dropLast && !(fs.dirs.contains p)

/-- Overwrite-or-create a file, the successful path of `open(path, "w")`
plus write; callers guard the failing opens with `FS.writeOk`. -/
def FS.write (fs : FS) (p : List String) (c : String) : FS :=
  { files := (p, c) :: fs.files.filter (fun e => !(e.1 == p)), dirs := fs.dirs }

/-- External extraction collaborators (spec sections 1 and 6): pypdf page
extraction and bs4 visible-text extraction.  `none` models the library
raising, which the try/except of extract_text_raw turns into "". -/
structure Extractors where
  pdfPagesOf : String → Option (List String)
  htmlTextOf : String → Option String

/-- Newline join, the model of `"\n".join(text)` in the PDF branch. -/
def joinLines : List String → String
  | [] => ""
  | [s] => s
  | s :: rest => s ++ "\n" ++ joinLines rest

/-- Embedding of file_server.extract_text_raw (lines 36-56): dispatch on the
lowercased suffix, with the surrounding try/except mapping any failure to "".
PDF: pages with truthy (non-empty) extracted text joined by newlines.
HTML: bs4 visible text after decomposing script and style elements.
Other: the raw decoded content (`errors="ignore"` decoding is below the
text-level abstraction, where content is already decoded text). -/
def extract_text_raw (E : Extractors) (fs : FS) (path : List String) : String :=
  let suffix := suffixOfPath path
  match fs.lookup path with
  | none => ""
  | some data =>
    if suffix = ".pdf" then
      match E.pdfPagesOf data with
      | none => ""
      | some pages => joinLines (pages.filter (fun t => !(t == "")))
    else if suffix = ".html" ∨ suffix = ".htm" then
      match E.htmlTextOf data with
      | none => ""
      | some t => t
    else data

/-- Embedding of list_available_files (lines 60-65): the names of the regular
files directly inside the sandbox root, in directory-iteration order (the
order of `FS.files`); the except branch (iterdir failure) is the empty
list. -/
def list_available_files (fs : FS) : List String :=
  (fs.files.filter (fun e => e.1.dropLast == TARGET_DIRECTORY)).map
    (fun e => e.1.getLastD "")

/-- Embedding of read_file_content (lines 67-72): resolve against the sandbox
root, report a missing path (`path.exists()` is true for files and
directories; extraction of a directory takes the exception branch and
returns ""), otherwise extract. -/
def read_file_content (E : Extractors) (fs : FS) (filename : String) : String :=
  let path := resolve TARGET_DIRECTORY filename
  if !(fs.pathExists path) then "Arquivo não encontrado."
  else extract_text_raw E fs path

/-- Embedding of save_document (lines 74-81): the filename is joined to the
sandbox root with no stripping of directory components and no containment
check; when the open succeeds the file is written (overwriting) and the
fixed success text returned, otherwise the except branch reports the error
and writes nothing (the source interpolates the OS exception into the text;
the model uses a fixed error marker). -/
def save_document (fs : FS) (filename content : String) : FS × String :=
  let p := resolve TARGET_DIRECTORY filename
  if fs.writeOk p then (fs.write p content, "Salvo com sucesso.")
  else (fs, "Erro: escrita falhou.")

/-- A chunk forwarded to the vector store: page_content plus the source
metadata tag. -/
structure Chunk where
  page_content : String
  source : String
deriving DecidableEq

/-- The persistent vector store, modelled as the list of added chunks. -/
structure VectorDB where
  docs : List Chunk
deriving DecidableEq

/-- Embedding of index_document (lines 85-108).  The
RecursiveCharacterTextSplitter is an external collaborator, passed as
`split` and invoked with the literal configuration of the source,
chunk_size 1000 and chunk_overlap 200; every produced chunk is tagged with
the source filename, appended to the store, and the success text reports the
chunk count. -/
def index_document (E : Extractors) (split : Nat → Nat → String → List String)
    (fs : FS) (db : VectorDB) (filename : String) : VectorDB × String :=
  let file_path := resolve TARGET_DIRECTORY filename
  if !(fs.pathExists file_path) then (db, "Arquivo não encontrado.")
  else
    let raw_text := extract_text_raw E fs file_path
    if raw_text = "" then (db, "Não foi possível extrair texto ou arquivo vazio.")
    else
      let chunks := (split 1000 200 raw_text).map (fun t => Chunk.mk t filename)
      (⟨db.docs ++ chunks⟩,
        "Sucesso: Arquivo \x27" ++ filename ++ "\x27 indexado. Gerados "
          ++ toString chunks.length ++ " fragmentos pesquisáveis.")

/- ----------------------------------------------------------------
   legal_agent.py: message model, tool adapter and orchestration loop
   ---------------------------------------------------------------- -/

/-- Message roles of the thread history (langchain System/Human/AI/Tool
messages). -/
inductive Role where
  | system
  | user
  | assistant
  | tool
deriving DecidableEq

/-- A ToolCallRequest emitted by the completion provider: tool name, argument
mapping and correlation id. -/
structure ToolCall where
  name : String
  args : List (String × String)
  id : String
deriving DecidableEq

/-- A message of the thread: role, text content, the tool calls of an
assistant message, and for a tool-result message the id it answers plus the
tool name (the ToolMessage fields of tools_node). -/
structure Msg where
  role : Role
  content : String
  tool_calls : List ToolCall := []
  tool_call_id : Option String := none
  name : Option String := none
deriving DecidableEq

/-- Argument extraction from the model-supplied mapping; a missing argument
is modelled as the empty string (in the source it would be a TypeError, a
path no claim exercises). -/
def getArg (args : List (String × String)) (key : String) : String :=
  ((args.find? (fun e => e.1 == key)).map (fun e => e.2)).getD ""

/-- Serialisation of the list-files result over the MCP transport
(result.content[0].text); the exact rendering is irrelevant to the claims. -/
def renderFileList (names : List String) : String :=
  toString names

/-- Embedding of the per-tool-call dispatch of legal_agent.tools_node (lines
121-131): the three declared tools forward to the capability server; any
other name produces the fixed error text instead of raising.  Only
save_file_tool mutates the filesystem. -/
def dispatchTool (E : Extractors) (fs : FS) (tc : ToolCall) : FS × String :=
  if tc.name = "list_files_tool" then
    (fs, renderFileList (list_available_files fs))
  else if tc.name = "read_file_tool" then
    (fs, read_file_content E fs (getArg tc.args "filename"))
  else if tc.name = "save_file_tool" then
    save_document fs (getArg tc.args "filename") (getArg tc.args "content")
  else
    (fs, "Erro: Ferramenta desconhecida.")

/-- The ToolMessage appended for one dispatched call: result text, the
originating call id, and the tool name (tools_node lines 133-137). -/
def toolMsg (tc : ToolCall) (res : String) : Msg :=
  { role := Role.tool, content := res, tool_call_id := some tc.id,
    name := some tc.name }

/-- The for-loop of tools_node (lines 121-137), rendered as structural
recursion: each ToolCallRequest is dispatched in the order received (each
call awaited before the next, threading the filesystem), and contributes
exactly one ToolMessage with the matching call id and tool name. -/
def runCalls (E : Extractors) (fs : FS) : List ToolCall → FS × List Msg
  | [] => (fs, [])
  | tc :: rest =>
    let r1 := dispatchTool E fs tc
    let r2 := runCalls E r1.1 rest
    (r2.1, toolMsg tc r1.2 :: r2.2)

/-- Placeholder for indexing an empty history (the source would raise on
`messages[-1]`; the loop never reaches tools_node with an empty history). -/
def defaultMsg : Msg :=
  { role := Role.assistant, content := "" }

/-- Embedding of tools_node (lines 118-138): read the tool calls of the last
message of the state and run them. -/
def tools_node (E : Extractors) (fs : FS) (msgs : List Msg) : FS × List Msg :=
  runCalls E fs (msgs.getLastD defaultMsg).tool_calls

/-- The completion-provider reply (spec section 6, complete(messages, tools)):
final text plus zero or more requested tool calls. -/
structure AIResp where
  content : String
  tool_calls : List ToolCall := []

/-- The assistant message appended by agent_node for a provider reply. -/
def mkAssistant (r : AIResp) : Msg :=
  { role := Role.assistant, content := r.content, tool_calls := r.tool_calls }

/-- Embedding of the compiled LangGraph loop (lines 140-152: agent →
should_continue → tools → agent): alternate provider calls and tool dispatch
until the assistant reply carries no tool calls.  `fuel` bounds the recursion
(the source imposes no iteration bound, a risk the spec records). -/
def runLoop (E : Extractors) (provider : List Msg → AIResp) :
    Nat → FS → List Msg → FS × List Msg
  | 0, fs, msgs => (fs, msgs)
  | fuel + 1, fs, msgs =>
    let a := mkAssistant (provider msgs)
    let msgs2 := msgs ++ [a]
    if a.tool_calls = [] then (fs, msgs2)
    else
      let r := tools_node E fs msgs2
      runLoop E provider fuel r.1 (msgs2 ++ r.2)

/-- The fixed operating instruction sent on every turn (content abbreviated;
no claim inspects it). -/
def system_instruction : String :=
  "Você é um Juiz Assistente Sênior. Siga este processo RÍGIDO."

def sysMsg : Msg :=
  { role := Role.system, content := system_instruction }

def userMsg (q : String) : Msg :=
  { role := Role.user, content := q }

/-- Embedding of run_agent_process (lines 80-183), the advance(thread_id,
user_input) of the spec: append the system instruction and the user message
to the loaded thread history, then drive the loop. -/
def advance (E : Extractors) (provider : List Msg → AIResp) (fuel : Nat)
    (fs : FS) (history : List Msg) (query : String) : FS × List Msg :=
  runLoop E provider fuel fs (history ++ [sysMsg, userMsg query])

/- ----------------------------------------------------------------
   Capability-server operation sequences (for state-change facts)
   ---------------------------------------------------------------- -/

/-- Capability-server operations, for stating which operations mutate the
sandbox state. -/
inductive Op where
  | list
  | read (filename : String)
  | save (filename content : String)
  | index (filename : String)

def Op.isSave : Op → Bool
  | Op.save _ _ => true
  | _ => false

/-- One capability dispatch on the pair (filesystem, vector store): only save
writes the filesystem, only index writes the vector store. -/
def applyOp (E : Extractors) (split : Nat → Nat → String → List String)
    (s : FS × VectorDB) : Op → FS × VectorDB
  | Op.list => s
  | Op.read _ => s
  | Op.save f c => ((save_document s.1 f c).1, s.2)
  | Op.index f => (s.1, (index_document E split s.1 s.2 f).1)

def applyOps (E : Extractors) (split : Nat → Nat → String → List String)
    (s : FS × VectorDB) : List Op → FS × VectorDB
  | [] => s
  | op :: rest => applyOps E split (applyOp E split s op) rest

/- ----------------------------------------------------------------
   Concrete collaborator instances and sample states, for closed
   witnesses and counterexamples
   ---------------------------------------------------------------- -/

/-- Tag stripping state machine: outside a tag characters are kept, inside a
tag (after `<`, until `>`) they are dropped. -/
def stripTagsAux : Bool → List Char → List Char
  | _, [] => []
  | false, c :: rest =>
    if c = '<' then stripTagsAux true rest else c :: stripTagsAux false rest
  | true, c :: rest =>
    if c = '>' then stripTagsAux false rest else stripTagsAux true rest

/-- Drops characters until (and including) the closing tag `closeT`; an
unterminated element runs to the end of input. -/
def dropUntilClose (closeT : List Char) : List Char → List Char
  | [] => []
  | c :: rest =>
    if closeT.isPrefixOf (c :: rest) then (c :: rest).drop closeT.length
    else dropUntilClose closeT rest

/-- Removes every `openT ... closeT` element, fuelled by the input length so
that the recursion is structural. -/
def removeElemsFuel (openT closeT : List Char) : Nat → List Char → List Char
  | 0, _ => []
  | _ + 1, [] => []
  | fuel + 1, c :: rest =>
    if openT.isPrefixOf (c :: rest) then
      removeElemsFuel openT closeT fuel
        (dropUntilClose closeT ((c :: rest).drop openT.length))
    else
      c :: removeElemsFuel openT closeT fuel rest

def removeElems (openT closeT : String) (s : String) : String :=
  String.mk (removeElemsFuel openT.data closeT.data s.data.length s.data)

/-- Modelled from the spec: the bs4 visible-text extraction collaborator
("HTML → script/style-stripped visible text"; BeautifulSoup is not part of
src/).  Script and style elements are dropped with their content, remaining
tags are stripped.  The separator get_text inserts between sibling text nodes
is not modelled; the concrete inputs used below have at most one text
node. -/
def htmlVisibleText (s : String) : String :=
  String.mk (stripTagsAux false
    (removeElems "<script>" "</script>" (removeElems "<style>" "</style>" s)).data)

/-- Modelled from the spec: a concrete collaborator instance for closed
witnesses and counterexamples.  A parseable PDF is encoded as "%PDF\n"
followed by page texts separated by form-feed characters; any other content
fails to parse, modelling PdfReader raising on non-PDF bytes ("fails with
... if extraction yields no text" relies only on the failure case). -/
def demoExtractors : Extractors where
  pdfPagesOf := fun s =>
    if "%PDF\n".data.isPrefixOf s.data then
      some ((splitOnChar '\x0c' (s.data.drop 5)).map String.mk)
    else none
  htmlTextOf := fun s => some (htmlVisibleText s)

/-- A degenerate splitter collaborator: one chunk holding the whole text. -/
def demoSplit : Nat → Nat → String → List String :=
  fun _ _ s => [s]

/-- The directories present in every sample filesystem: the filesystem root,
the working directory and the sandbox root. -/
def demoDirs : List (List String) :=
  [[], ["app"], TARGET_DIRECTORY]

/-- A sample filesystem: a confidential file outside the sandbox root and two
files inside it, listed in an unsorted iteration order. -/
def demoFS : FS :=
  ⟨[(["app", "segredo.txt"], "conteudo confidencial"),
    (["app", "dados_processos", "b.txt"], "bbb"),
    (["app", "dados_processos", "a.txt"], "aaa")], demoDirs⟩

/-- A sample filesystem holding one parseable two-page PDF (with an empty
middle page) inside the sandbox root. -/
def pdfFS : FS :=
  ⟨[(TARGET_DIRECTORY ++ ["doc.pdf"], "%PDF\npagina um\x0c\x0cpagina dois")], demoDirs⟩

/-- A sample filesystem holding an existing but unparseable PDF. -/
def corruptFS : FS :=
  ⟨[(TARGET_DIRECTORY ++ ["quebrado.pdf"], "isto nao e um pdf")], demoDirs⟩

/-- An empty sandbox: the directories exist but hold no files. -/
def emptyFS : FS :=
  ⟨[], demoDirs⟩

/-- A provider that requests one list-files call on the first turn and then
answers without tool calls. -/
def demoCall : ToolCall :=
  { name := "list_files_tool", args := [], id := "call1" }

def demoProviderOneCall : List Msg → AIResp :=
  fun msgs =>
    if msgs.length ≤ 2 then { content := "", tool_calls := [demoCall] }
    else { content := "pronto" }

/-- A provider that never requests a tool call. -/
def demoProviderPlain : List Msg → AIResp :=
  fun _ => { content := "ola" }

/-- A tool call whose name is not in the declared set. -/
def unknownCall : ToolCall :=
  { name := "delete_everything_tool", args := [], id := "call9" }

end LegalAgent

namespace LegalAgent

/- ----------------------------------------------------------------
   Helper lemmas (shared)
   ---------------------------------------------------------------- -/

/-- Writing a file makes it the lookup result at its own path. -/
theorem FS.lookup_write_self (fs : FS) (p : List String) (c : String) :
    (fs.write p c).lookup p = some c := by
  simp [FS.write, FS.lookup, List.find?_cons_of_pos]

/-- Extraction of an existing file whose suffix is none of .pdf, .html, .htm
takes the raw branch and returns the stored content. -/
theorem extract_raw_suffix (E : Extractors) (fs : FS) (p : List String) (content : String)
    (h : fs.lookup p = some content)
    (h1 : suffixOfPath p ≠ ".pdf") (h2 : suffixOfPath p ≠ ".html")
    (h3 : suffixOfPath p ≠ ".htm") :
    extract_text_raw E fs p = content := by
  unfold extract_text_raw
  rw [h]
  simp [h1, h2, h3]

/-- For an existing file, read_file_content is extraction at the resolved
path. -/
theorem read_eq_extract (E : Extractors) (fs : FS) (filename content : String)
    (hc : fs.lookup (resolve TARGET_DIRECTORY filename) = some content) :
    read_file_content E fs filename
      = extract_text_raw E fs (resolve TARGET_DIRECTORY filename) := by
  unfold read_file_content
  simp [FS.pathExists, hc]

/-- Appending a message makes it the last message of the state. -/
theorem getLastD_concat_msg (msgs : List Msg) (a d : Msg) :
    (msgs ++ [a]).getLastD d = a := by
  simp [List.getLastD_concat]

/-- The tool loop produces one output message per requested call. -/
theorem runCalls_length (E : Extractors) (fs : FS) (calls : List ToolCall) :
    (runCalls E fs calls).2.length = calls.length := by
  induction calls generalizing fs with
  | nil => rfl
  | cons tc rest ih => simp [runCalls, ih]

/-- The i-th output of the tool loop is a tool-result message carrying the id
and name of the i-th requested call. -/
theorem runCalls_get (E : Extractors) :
    ∀ (calls : List ToolCall) (fs : FS) (i : Nat) (tc : ToolCall) (m : Msg),
      calls[i]? = some tc → (runCalls E fs calls).2[i]? = some m →
      m.role = Role.tool ∧ m.tool_call_id = some tc.id ∧ m.name = some tc.name := by
  intro calls
  induction calls with
  | nil => intro fs i tc m h _; simp at h
  | cons hd rest ih =>
    intro fs i tc m hc hm
    cases i with
    | zero =>
      simp only [List.getElem?_cons_zero, Option.some_inj] at hc
      simp only [runCalls, List.getElem?_cons_zero, Option.some_inj] at hm
      subst hc
      rw [← hm]
      exact ⟨rfl, rfl, rfl⟩
    | succ n =>
      simp only [List.getElem?_cons_succ] at hc
      simp only [runCalls, List.getElem?_cons_succ] at hm
      exact ih _ n tc m hc hm

/-- When the provider reply has no tool calls, the loop stops with it as the
final message and the state untouched. -/
theorem runLoop_succ_no_calls (E : Extractors) (provider : List Msg → AIResp)
    (fuel : Nat) (fs : FS) (msgs : List Msg)
    (h : (provider msgs).tool_calls = []) :
    runLoop E provider (fuel + 1) fs msgs
      = (fs, msgs ++ [mkAssistant (provider msgs)]) := by
  unfold runLoop
  simp [mkAssistant, h]

/-- When the provider reply has tool calls, one loop iteration appends the
assistant message and the dispatched tool results, then continues. -/
theorem runLoop_succ_calls (E : Extractors) (provider : List Msg → AIResp)
    (fuel : Nat) (fs : FS) (msgs : List Msg)
    (h : (provider msgs).tool_calls ≠ []) :
    runLoop E provider (fuel + 1) fs msgs
      = runLoop E provider fuel (runCalls E fs (provider msgs).tool_calls).1
          ((msgs ++ [mkAssistant (provider msgs)])
            ++ (runCalls E fs (provider msgs).tool_calls).2) := by
  conv_lhs => rw [runLoop]
  simp [tools_node, getLastD_concat_msg, mkAssistant, h]

/-- The loop never drops history. -/
theorem runLoop_length_le (E : Extractors) (provider : List Msg → AIResp) :
    ∀ (fuel : Nat) (fs : FS) (msgs : List Msg),
      msgs.length ≤ (runLoop E provider fuel fs msgs).2.length := by
  intro fuel
  induction fuel with
  | zero => intro fs msgs; simp [runLoop]
  | succ f ih =>
    intro fs msgs
    by_cases h : (provider msgs).tool_calls = []
    · rw [runLoop_succ_no_calls E provider f fs msgs h]; simp
    · rw [runLoop_succ_calls E provider f fs msgs h]
      calc msgs.length
          ≤ ((msgs ++ [mkAssistant (provider msgs)])
              ++ (runCalls E fs (provider msgs).tool_calls).2).length := by
            simp
        _ ≤ _ := ih _ _

/-- A loop run with positive fuel appends at least one message. -/
theorem runLoop_length_succ (E : Extractors) (provider : List Msg → AIResp)
    (fuel : Nat) (fs : FS) (msgs : List Msg) :
    msgs.length + 1 ≤ (runLoop E provider (fuel + 1) fs msgs).2.length := by
  by_cases h : (provider msgs).tool_calls = []
  · rw [runLoop_succ_no_calls E provider fuel fs msgs h]; simp
  · rw [runLoop_succ_calls E provider fuel fs msgs h]
    have hle := runLoop_length_le E provider fuel
      (runCalls E fs (provider msgs).tool_calls).1
      ((msgs ++ [mkAssistant (provider msgs)])
        ++ (runCalls E fs (provider msgs).tool_calls).2)
    simp only [List.length_append, List.length_cons] at hle ⊢
    omega

/-- Dispatch of a name outside the declared tool set returns the fixed error
text and leaves the filesystem unchanged. -/
theorem dispatchTool_unknown (E : Extractors) (fs : FS) (tc : ToolCall)
    (h1 : tc.name ≠ "list_files_tool") (h2 : tc.name ≠ "read_file_tool")
    (h3 : tc.name ≠ "save_file_tool") :
    dispatchTool E fs tc = (fs, "Erro: Ferramenta desconhecida.") := by
  simp [dispatchTool, h1, h2, h3]

/-- A call with an undeclared name, wherever it sits in the request list,
yields an error tool-result message with its call id. -/
theorem runCalls_unknown (E : Extractors) :
    ∀ (calls : List ToolCall) (fs : FS) (i : Nat) (tc : ToolCall),
      calls[i]? = some tc →
      tc.name ≠ "list_files_tool" → tc.name ≠ "read_file_tool" →
      tc.name ≠ "save_file_tool" →
      ∃ m : Msg, (runCalls E fs calls).2[i]? = some m
        ∧ m.content = "Erro: Ferramenta desconhecida."
        ∧ m.tool_call_id = some tc.id ∧ m.role = Role.tool := by
  intro calls
  induction calls with
  | nil => intro fs i tc h; simp at h
  | cons hd rest ih =>
    intro fs i tc hc h1 h2 h3
    cases i with
    | zero =>
      simp only [List.getElem?_cons_zero, Option.some_inj] at hc
      subst hc
      refine ⟨toolMsg hd (dispatchTool E fs hd).2, ?_, ?_, rfl, rfl⟩
      · simp [runCalls]
      · rw [dispatchTool_unknown E fs hd h1 h2 h3]
        rfl
    | succ n =>
      simp only [List.getElem?_cons_succ] at hc
      have := ih (dispatchTool E fs hd).1 n tc hc h1 h2 h3
      simpa [runCalls] using this

/-- Only save operations touch the filesystem component of the capability
state. -/
theorem applyOps_fs_eq (E : Extractors) (split : Nat → Nat → String → List String) :
    ∀ (ops : List Op) (s : FS × VectorDB),
      (∀ op ∈ ops, op.isSave = false) → (applyOps E split s ops).1 = s.1 := by
  intro ops
  induction ops with
  | nil => intro s _; rfl
  | cons op rest ih =>
    intro s h
    have hop := h op (List.mem_cons_self _ _)
    have hrest : ∀ o ∈ rest, o.isSave = false :=
      fun o ho => h o (List.mem_cons_of_mem _ ho)
    cases op with
    | list => exact ih s hrest
    | read f => exact ih s hrest
    | save f c => simp [Op.isSave] at hop
    | index f => exact ih (s.1, (index_document E split s.1 s.2 f).1) hrest

end LegalAgent

namespace LegalAgent

/- ----------------------------------------------------------------
   Claims
   ---------------------------------------------------------------- -/

/-- Claim C1 (code bug).  The spec requires read_file to reject filenames
resolving outside the sandbox root with SandboxViolation and save_file to
strip directory components before joining.  The code does neither: with
`../segredo.txt` the resolved path leaves the sandbox root, yet
read_file_content returns the outside file's content, and save_document with
`../evil.txt` writes a file outside the root. -/
theorem c1_sandbox_escape_code_bug :
    TARGET_DIRECTORY.isPrefixOf (resolve TARGET_DIRECTORY "../segredo.txt") = false
    ∧ read_file_content demoExtractors demoFS "../segredo.txt"
        = "conteudo confidencial"
    ∧ (save_document demoFS "../evil.txt" "pwned").1.lookup ["app", "evil.txt"]
        = some "pwned"
    ∧ TARGET_DIRECTORY.isPrefixOf ["app", "evil.txt"] = false := by
  exact ⟨rfl, by decide, by decide, rfl⟩

/-- Claim C2.  When the provider reply carries tool calls, one loop iteration
dispatches them sequentially in the order received (the filesystem threaded
left to right through runCalls) and appends, before the next provider call,
exactly one tool-result message per request, carrying the same call id and
tool name at the same position. -/
theorem c2_tool_results_matched_in_order (E : Extractors)
    (provider : List Msg → AIResp) (fuel : Nat) (fs : FS) (msgs : List Msg)
    (h : (provider msgs).tool_calls ≠ []) :
    runLoop E provider (fuel + 1) fs msgs
      = runLoop E provider fuel (runCalls E fs (provider msgs).tool_calls).1
          ((msgs ++ [mkAssistant (provider msgs)])
            ++ (runCalls E fs (provider msgs).tool_calls).2)
    ∧ (runCalls E fs (provider msgs).tool_calls).2.length
        = (provider msgs).tool_calls.length
    ∧ ∀ (i : Nat) (tc : ToolCall) (m : Msg),
        (provider msgs).tool_calls[i]? = some tc →
        (runCalls E fs (provider msgs).tool_calls).2[i]? = some m →
        m.role = Role.tool ∧ m.tool_call_id = some tc.id ∧ m.name = some tc.name :=
  ⟨runLoop_succ_calls E provider fuel fs msgs h,
   runCalls_length E fs (provider msgs).tool_calls,
   fun i tc m hc hm => runCalls_get E (provider msgs).tool_calls fs i tc m hc hm⟩

/-- Claim C2, witness: the property at a concrete provider requesting one
list-files call on an empty history. -/
theorem c2_tool_results_matched_in_order_witness :
    runLoop demoExtractors demoProviderOneCall (0 + 1) demoFS []
      = runLoop demoExtractors demoProviderOneCall 0
          (runCalls demoExtractors demoFS (demoProviderOneCall []).tool_calls).1
          (([] ++ [mkAssistant (demoProviderOneCall [])])
            ++ (runCalls demoExtractors demoFS (demoProviderOneCall []).tool_calls).2)
    ∧ (runCalls demoExtractors demoFS (demoProviderOneCall []).tool_calls).2.length
        = (demoProviderOneCall []).tool_calls.length
    ∧ ∀ (i : Nat) (tc : ToolCall) (m : Msg),
        (demoProviderOneCall []).tool_calls[i]? = some tc →
        (runCalls demoExtractors demoFS (demoProviderOneCall []).tool_calls).2[i]?
            = some m →
        m.role = Role.tool ∧ m.tool_call_id = some tc.id ∧ m.name = some tc.name :=
  c2_tool_results_matched_in_order demoExtractors demoProviderOneCall 0 demoFS []
    (by decide)

/-- Claim C3.  The loop exits exactly when the assistant message carries zero
tool calls: a no-tool-call reply ends the loop with that reply as the final
message, a reply with tool calls makes the loop continue past it; and on an
empty thread with a no-tool-call provider, advance produces the system
message, exactly one user message and exactly one assistant message, the
final message being that assistant message with zero tool calls. -/
theorem c3_loop_exits_without_tool_calls (E : Extractors)
    (provider : List Msg → AIResp) (fuel : Nat) (fs : FS) (q : String)
    (h : (provider [sysMsg, userMsg q]).tool_calls = []) :
    (∀ (fs2 : FS) (msgs : List Msg), (provider msgs).tool_calls = [] →
        runLoop E provider (fuel + 1) fs2 msgs
          = (fs2, msgs ++ [mkAssistant (provider msgs)]))
    ∧ (∀ (fs2 : FS) (msgs : List Msg), (provider msgs).tool_calls ≠ [] →
        msgs.length + 1 < (runLoop E provider (fuel + 2) fs2 msgs).2.length)
    ∧ advance E provider (fuel + 1) fs [] q
        = (fs, [sysMsg, userMsg q, mkAssistant (provider [sysMsg, userMsg q])])
    ∧ ((advance E provider (fuel + 1) fs [] q).2.countP
        (fun m => decide (m.role = Role.user))) = 1
    ∧ ((advance E provider (fuel + 1) fs [] q).2.countP
        (fun m => decide (m.role = Role.assistant))) = 1
    ∧ ∀ m : Msg, (advance E provider (fuel + 1) fs [] q).2.getLast? = some m →
        m.role = Role.assistant ∧ m.tool_calls = [] := by
  have hadv : advance E provider (fuel + 1) fs [] q
      = (fs, [sysMsg, userMsg q, mkAssistant (provider [sysMsg, userMsg q])]) := by
    unfold advance
    rw [List.nil_append, runLoop_succ_no_calls E provider fuel fs _ h]
    rfl
  refine ⟨fun fs2 msgs hm => runLoop_succ_no_calls E provider fuel fs2 msgs hm,
          ?_, hadv, ?_, ?_, ?_⟩
  · intro fs2 msgs hm
    rw [runLoop_succ_calls E provider (fuel + 1) fs2 msgs hm]
    have hle := runLoop_length_succ E provider fuel
      (runCalls E fs2 (provider msgs).tool_calls).1
      ((msgs ++ [mkAssistant (provider msgs)])
        ++ (runCalls E fs2 (provider msgs).tool_calls).2)
    simp only [List.length_append, List.length_cons] at hle ⊢
    omega
  · rw [hadv]
    simp [List.countP_cons, sysMsg, userMsg, mkAssistant]
  · rw [hadv]
    simp [List.countP_cons, sysMsg, userMsg, mkAssistant]
  · intro m hm
    rw [hadv] at hm
    simp only [List.getLast?] at hm
    have hmm : m = mkAssistant (provider [sysMsg, userMsg q]) := by
      simpa using hm.symm
    rw [hmm]
    exact ⟨rfl, by simpa [mkAssistant] using h⟩

/-- Claim C3, witness: the property at a provider that never requests tool
calls, on an empty thread. -/
theorem c3_loop_exits_without_tool_calls_witness :
    (∀ (fs2 : FS) (msgs : List Msg), (demoProviderPlain msgs).tool_calls = [] →
        runLoop demoExtractors demoProviderPlain (0 + 1) fs2 msgs
          = (fs2, msgs ++ [mkAssistant (demoProviderPlain msgs)]))
    ∧ (∀ (fs2 : FS) (msgs : List Msg), (demoProviderPlain msgs).tool_calls ≠ [] →
        msgs.length + 1
          < (runLoop demoExtractors demoProviderPlain (0 + 2) fs2 msgs).2.length)
    ∧ advance demoExtractors demoProviderPlain (0 + 1) demoFS [] "hello"
        = (demoFS, [sysMsg, userMsg "hello",
            mkAssistant (demoProviderPlain [sysMsg, userMsg "hello"])])
    ∧ ((advance demoExtractors demoProviderPlain (0 + 1) demoFS [] "hello").2.countP
        (fun m => decide (m.role = Role.user))) = 1
    ∧ ((advance demoExtractors demoProviderPlain (0 + 1) demoFS [] "hello").2.countP
        (fun m => decide (m.role = Role.assistant))) = 1
    ∧ ∀ m : Msg,
        (advance demoExtractors demoProviderPlain (0 + 1) demoFS [] "hello").2.getLast?
          = some m → m.role = Role.assistant ∧ m.tool_calls = [] :=
  c3_loop_exits_without_tool_calls demoExtractors demoProviderPlain 0 demoFS "hello"
    (by decide)

/-- Claim C4.  A tool call whose name is not in the declared set does not
raise: its dispatch returns the fixed error text with the filesystem
unchanged, the tool loop still emits exactly one tool-result message carrying
the originating call id, and the orchestration loop continues past the error
(the history grows beyond the assistant message, so the model sees the error
and can self-correct). -/
theorem c4_unknown_tool_error_result (E : Extractors) (fs : FS) (tc : ToolCall)
    (h1 : tc.name ≠ "list_files_tool") (h2 : tc.name ≠ "read_file_tool")
    (h3 : tc.name ≠ "save_file_tool") :
    dispatchTool E fs tc = (fs, "Erro: Ferramenta desconhecida.")
    ∧ (∀ (calls : List ToolCall) (i : Nat), calls[i]? = some tc →
        ∃ m : Msg, (runCalls E fs calls).2[i]? = some m
          ∧ m.content = "Erro: Ferramenta desconhecida."
          ∧ m.tool_call_id = some tc.id ∧ m.role = Role.tool)
    ∧ ∀ (provider : List Msg → AIResp) (fuel : Nat) (msgs : List Msg),
        (provider msgs).tool_calls = [tc] →
        msgs.length + 1 < (runLoop E provider (fuel + 2) fs msgs).2.length := by
  refine ⟨dispatchTool_unknown E fs tc h1 h2 h3,
          fun calls i hc => runCalls_unknown E calls fs i tc hc h1 h2 h3,
          ?_⟩
  intro provider fuel msgs hcalls
  have hne : (provider msgs).tool_calls ≠ [] := by rw [hcalls]; simp
  rw [runLoop_succ_calls E provider (fuel + 1) fs msgs hne]
  have hle := runLoop_length_succ E provider fuel
    (runCalls E fs (provider msgs).tool_calls).1
    ((msgs ++ [mkAssistant (provider msgs)])
      ++ (runCalls E fs (provider msgs).tool_calls).2)
  simp only [List.length_append, List.length_cons] at hle ⊢
  omega

/-- Claim C4, witness: the property at the concrete undeclared tool name. -/
theorem c4_unknown_tool_error_result_witness :
    dispatchTool demoExtractors demoFS unknownCall
      = (demoFS, "Erro: Ferramenta desconhecida.")
    ∧ (∀ (calls : List ToolCall) (i : Nat), calls[i]? = some unknownCall →
        ∃ m : Msg, (runCalls demoExtractors demoFS calls).2[i]? = some m
          ∧ m.content = "Erro: Ferramenta desconhecida."
          ∧ m.tool_call_id = some unknownCall.id ∧ m.role = Role.tool)
    ∧ ∀ (provider : List Msg → AIResp) (fuel : Nat) (msgs : List Msg),
        (provider msgs).tool_calls = [unknownCall] →
        msgs.length + 1
          < (runLoop demoExtractors provider (fuel + 2) demoFS msgs).2.length :=
  c4_unknown_tool_error_result demoExtractors demoFS unknownCall
    (by decide) (by decide) (by decide)

end LegalAgent

namespace LegalAgent

/-- Claim C5, counterexample.  Saving to an .html filename and reading it
back does not return the content: the read path re-parses the saved text as
HTML, so a document that is entirely a script element reads back as "". -/
theorem c5_roundtrip_counterexample :
    read_file_content demoExtractors
        (save_document demoFS "a.html" "<script>x</script>").1 "a.html" = ""
    ∧ ("" : String) ≠ "<script>x</script>" := by
  exact ⟨by decide, by decide⟩

/-- Claim C5, amended.  When save_document reports success (the open
succeeded: the resolved parent directory exists and the target is not a
directory) and the resolved name has a suffix other than .pdf, .html and
.htm (case-insensitive), reading the file back returns exactly the content;
when save_document does not report success its except branch has fired and
nothing was written. -/
theorem c5_roundtrip_plain_suffix (E : Extractors) (fs : FS)
    (filename content : String) :
    ((save_document fs filename content).2 = "Salvo com sucesso." →
      suffixOfPath (resolve TARGET_DIRECTORY filename) ≠ ".pdf" →
      suffixOfPath (resolve TARGET_DIRECTORY filename) ≠ ".html" →
      suffixOfPath (resolve TARGET_DIRECTORY filename) ≠ ".htm" →
      read_file_content E (save_document fs filename content).1 filename = content)
    ∧ ((save_document fs filename content).2 ≠ "Salvo com sucesso." →
        (save_document fs filename content).1 = fs) := by
  by_cases hw : fs.writeOk (resolve TARGET_DIRECTORY filename) = true
  · have hsd : save_document fs filename content
        = (fs.write (resolve TARGET_DIRECTORY filename) content,
            "Salvo com sucesso.") := by
      simp [save_document, hw]
    constructor
    · intro _ h1 h2 h3
      rw [hsd]
      have hl : (fs.write (resolve TARGET_DIRECTORY filename) content).lookup
          (resolve TARGET_DIRECTORY filename) = some content :=
        FS.lookup_write_self fs (resolve TARGET_DIRECTORY filename) content
      unfold read_file_content
      simp only [FS.pathExists, hl, Option.isSome_some, Bool.true_or,
        Bool.not_true, Bool.false_eq_true, if_false]
      exact extract_raw_suffix E _ _ content hl h1 h2 h3
    · intro hne
      rw [hsd] at hne
      exact absurd rfl hne
  · have hsd : save_document fs filename content = (fs, "Erro: escrita falhou.") := by
      simp [save_document, hw]
    constructor
    · intro hs
      rw [hsd] at hs
      have hne : ("Erro: escrita falhou." : String) ≠ "Salvo com sucesso." := by decide
      exact absurd hs hne
    · intro _
      rw [hsd]

/-- Claim C5, witness: the round trip at a concrete markdown file whose save
succeeds, and a failing save (missing parent directory sub/) that leaves the
filesystem unchanged. -/
theorem c5_roundtrip_plain_suffix_witness :
    read_file_content demoExtractors
        (save_document demoFS "relatorio.md" "laudo final").1 "relatorio.md"
      = "laudo final"
    ∧ (save_document demoFS "sub/x.txt" "laudo").1 = demoFS :=
  ⟨(c5_roundtrip_plain_suffix demoExtractors demoFS "relatorio.md" "laudo final").1
      (by decide) (by decide) (by decide) (by decide),
   (c5_roundtrip_plain_suffix demoExtractors demoFS "sub/x.txt" "laudo").2
      (by decide)⟩

/-- Claim C6, counterexample.  On an empty sandbox list_available_files
returns the empty collection (no explicit "no files" signal), and on a
sandbox whose iteration order is b.txt before a.txt it returns an unsorted
list. -/
theorem c6_list_counterexample :
    list_available_files emptyFS = ([] : List String)
    ∧ list_available_files demoFS = ["b.txt", "a.txt"]
    ∧ ¬ List.Sorted (fun a b => a ≤ b) (list_available_files demoFS) := by
  refine ⟨by decide, by decide, ?_⟩
  intro h
  have hres : list_available_files demoFS = ["b.txt", "a.txt"] := by decide
  rw [hres] at h
  have hle : ("b.txt" : String) ≤ "a.txt" :=
    (List.pairwise_cons.mp h).1 _ (List.mem_cons_self _ _)
  rw [String.le_iff_toList_le] at hle
  exact absurd hle (by decide)

/-- Claim C6, amended.  list_available_files returns the names of the regular
files directly inside the sandbox root, in directory-iteration order and
without sorting; the result is empty exactly when the root holds no file, and
a name is listed exactly when the root holds a file of that name. -/
theorem c6_list_iteration_order (fs : FS) :
    (list_available_files fs = []
      ↔ ∀ e ∈ fs.files, e.1.dropLast ≠ TARGET_DIRECTORY)
    ∧ ∀ n : String, n ∈ list_available_files fs
        ↔ ∃ c, (TARGET_DIRECTORY ++ [n], c) ∈ fs.files := by
  constructor
  · simp [list_available_files, List.filter_eq_nil_iff]
  · intro n
    constructor
    · intro hn
      simp only [list_available_files, List.mem_map, List.mem_filter] at hn
      obtain ⟨e, ⟨he, hpred⟩, hname⟩ := hn
      have hpred2 : e.1.dropLast = TARGET_DIRECTORY := by
        simpa using hpred
      have hne : e.1 ≠ [] := by
        intro hnil
        rw [hnil] at hpred2
        simp [TARGET_DIRECTORY] at hpred2
      have hsplit := List.dropLast_append_getLast hne
      have hlast : e.1.getLastD "" = e.1.getLast hne := by
        rw [List.getLastD_eq_getLast?, List.getLast?_eq_getLast _ hne]
        rfl
      refine ⟨e.2, ?_⟩
      have heq : e.1 = TARGET_DIRECTORY ++ [n] := by
        rw [← hsplit, hpred2, ← hlast, hname]
      rw [← heq]
      exact he
    · intro ⟨c, hc⟩
      simp only [list_available_files, List.mem_map, List.mem_filter]
      refine ⟨(TARGET_DIRECTORY ++ [n], c), ⟨hc, ?_⟩, ?_⟩
      · simp
      · simp

/-- Claim C6, witness: the membership characterisation at a concrete name on
the sample sandbox. -/
theorem c6_list_iteration_order_witness :
    "a.txt" ∈ list_available_files demoFS
      ↔ ∃ c, (TARGET_DIRECTORY ++ ["a.txt"], c) ∈ demoFS.files :=
  (c6_list_iteration_order demoFS).2 "a.txt"

/-- Claim C7.  For an existing file, index_document fails with the
empty-document signal exactly when extraction yields no text; otherwise it
invokes the splitter collaborator with the configured chunk size 1000 and
overlap 200, tags every produced chunk with the source filename, appends
exactly those chunks to the vector store, and reports the chunk count in its
success text. -/
theorem c7_index_document_chunks (E : Extractors)
    (split : Nat → Nat → String → List String) (fs : FS) (db : VectorDB)
    (filename content : String)
    (hc : fs.lookup (resolve TARGET_DIRECTORY filename) = some content) :
    (extract_text_raw E fs (resolve TARGET_DIRECTORY filename) = "" →
      index_document E split fs db filename
        = (db, "Não foi possível extrair texto ou arquivo vazio."))
    ∧ (extract_text_raw E fs (resolve TARGET_DIRECTORY filename) ≠ "" →
        (index_document E split fs db filename).1.docs
            = db.docs
              ++ (split 1000 200
                    (extract_text_raw E fs (resolve TARGET_DIRECTORY filename))).map
                  (fun t => Chunk.mk t filename)
        ∧ (index_document E split fs db filename).2
            = "Sucesso: Arquivo \x27" ++ filename ++ "\x27 indexado. Gerados "
              ++ toString ((split 1000 200
                    (extract_text_raw E fs (resolve TARGET_DIRECTORY filename))).map
                  (fun t => Chunk.mk t filename)).length
              ++ " fragmentos pesquisáveis."
        ∧ ∀ ch ∈ (split 1000 200
              (extract_text_raw E fs (resolve TARGET_DIRECTORY filename))).map
                (fun t => Chunk.mk t filename),
            ch.source = filename) := by
  constructor
  · intro hraw
    unfold index_document
    simp [FS.pathExists, hc, hraw]
  · intro hraw
    unfold index_document
    refine ⟨?_, ?_, ?_⟩
    · simp [FS.pathExists, hc, hraw]
    · simp [FS.pathExists, hc, hraw]
    · intro ch hch
      simp only [List.mem_map] at hch
      obtain ⟨t, _, rfl⟩ := hch
      rfl

/-- Claim C7, witness: indexing the concrete text file a.txt with the
one-chunk splitter adds one tagged chunk and reports count 1. -/
theorem c7_index_document_chunks_witness :
    (index_document demoExtractors demoSplit demoFS ⟨[]⟩ "a.txt").1.docs
        = (VectorDB.mk []).docs
          ++ (demoSplit 1000 200
                (extract_text_raw demoExtractors demoFS
                  (resolve TARGET_DIRECTORY "a.txt"))).map
              (fun t => Chunk.mk t "a.txt")
    ∧ (index_document demoExtractors demoSplit demoFS ⟨[]⟩ "a.txt").2
        = "Sucesso: Arquivo \x27" ++ "a.txt" ++ "\x27 indexado. Gerados "
          ++ toString ((demoSplit 1000 200
                (extract_text_raw demoExtractors demoFS
                  (resolve TARGET_DIRECTORY "a.txt"))).map
              (fun t => Chunk.mk t "a.txt")).length
          ++ " fragmentos pesquisáveis."
    ∧ ∀ ch ∈ (demoSplit 1000 200
          (extract_text_raw demoExtractors demoFS
            (resolve TARGET_DIRECTORY "a.txt"))).map
            (fun t => Chunk.mk t "a.txt"),
        ch.source = "a.txt" :=
  (c7_index_document_chunks demoExtractors demoSplit demoFS ⟨[]⟩ "a.txt" "aaa"
    (by decide)).2 (by decide)

end LegalAgent

namespace LegalAgent

/-- Claim C8, counterexample.  The PDF read path joins the non-empty page
texts with bare newlines: a three-page PDF whose middle page is empty reads
back as exactly the two texts separated by one newline, with no page marker
of any kind (the source never uses its enumerate index). -/
theorem c8_page_markers_counterexample :
    demoExtractors.pdfPagesOf "%PDF\npagina um\x0c\x0cpagina dois"
        = some ["pagina um", "", "pagina dois"]
    ∧ pdfFS.lookup (TARGET_DIRECTORY ++ ["doc.pdf"])
        = some "%PDF\npagina um\x0c\x0cpagina dois"
    ∧ read_file_content demoExtractors pdfFS "doc.pdf" = "pagina um\npagina dois" := by
  exact ⟨by decide, by decide, by decide⟩

/-- Claim C8, amended.  For every existing file, read_file_content returns
text whose form depends on the type: for a parseable PDF the non-empty page
texts joined by newlines (no page markers), for HTML the collaborator's
script/style-stripped visible text, and for any other suffix the raw decoded
content. -/
theorem c8_extraction_by_type (E : Extractors) (fs : FS)
    (filename content : String)
    (hc : fs.lookup (resolve TARGET_DIRECTORY filename) = some content) :
    (suffixOfPath (resolve TARGET_DIRECTORY filename) = ".pdf" →
      (∀ pages : List String, E.pdfPagesOf content = some pages →
        read_file_content E fs filename
          = joinLines (pages.filter (fun t => !(t == ""))))
      ∧ (E.pdfPagesOf content = none → read_file_content E fs filename = ""))
    ∧ ((suffixOfPath (resolve TARGET_DIRECTORY filename) = ".html"
        ∨ suffixOfPath (resolve TARGET_DIRECTORY filename) = ".htm") →
      ∀ t : String, E.htmlTextOf content = some t →
        read_file_content E fs filename = t)
    ∧ (suffixOfPath (resolve TARGET_DIRECTORY filename) ≠ ".pdf" →
        suffixOfPath (resolve TARGET_DIRECTORY filename) ≠ ".html" →
        suffixOfPath (resolve TARGET_DIRECTORY filename) ≠ ".htm" →
        read_file_content E fs filename = content) := by
  rw [read_eq_extract E fs filename content hc]
  unfold extract_text_raw
  rw [hc]
  refine ⟨?_, ?_, ?_⟩
  · intro hpdf
    constructor
    · intro pages hp
      simp [hpdf, hp]
    · intro hp
      simp [hpdf, hp]
  · intro hhtml t ht
    have hnpdf : suffixOfPath (resolve TARGET_DIRECTORY filename) ≠ ".pdf" := by
      rcases hhtml with h | h <;> rw [h] <;> decide
    simp [hnpdf, hhtml, ht]
  · intro h1 h2 h3
    simp [h1, h2, h3]

/-- Claim C8, witness: the raw-text branch at the concrete file a.txt. -/
theorem c8_extraction_by_type_witness :
    read_file_content demoExtractors demoFS "a.txt" = "aaa" :=
  (c8_extraction_by_type demoExtractors demoFS "a.txt" "aaa" (by decide)).2.2
    (by decide) (by decide) (by decide)

/-- Claim C9.  Any sequence of capability operations containing no save
leaves the sandbox filesystem unchanged, so two list_available_files calls
with no intervening writes return identical results in identical order. -/
theorem c9_list_deterministic (E : Extractors)
    (split : Nat → Nat → String → List String) (s : FS × VectorDB)
    (ops : List Op) (h : ∀ op ∈ ops, op.isSave = false) :
    (applyOps E split s ops).1 = s.1
    ∧ list_available_files (applyOps E split s ops).1
        = list_available_files s.1 := by
  have hfs := applyOps_fs_eq E split ops s h
  exact ⟨hfs, by rw [hfs]⟩

/-- Claim C9, witness: a concrete list-read-index sequence between two list
calls leaves the listing unchanged. -/
theorem c9_list_deterministic_witness :
    (applyOps demoExtractors demoSplit (demoFS, ⟨[]⟩)
        [Op.list, Op.read "a.txt", Op.index "a.txt"]).1
      = (demoFS, (⟨[]⟩ : VectorDB)).1
    ∧ list_available_files (applyOps demoExtractors demoSplit (demoFS, ⟨[]⟩)
        [Op.list, Op.read "a.txt", Op.index "a.txt"]).1
      = list_available_files (demoFS, (⟨[]⟩ : VectorDB)).1 :=
  c9_list_deterministic demoExtractors demoSplit (demoFS, ⟨[]⟩)
    [Op.list, Op.read "a.txt", Op.index "a.txt"]
    (by intro op hop; fin_cases hop <;> rfl)

/-- Claim C10.  Extraction is total by construction in this embedding, and
every exception path yields "": a nonexistent (or unopenable) path extracts
to "", and an existing file whose PDF or HTML parse raises reads back as ""
rather than propagating an error. -/
theorem c10_extraction_never_raises (E : Extractors) (fs : FS)
    (p : List String) (filename content : String) :
    (fs.lookup p = none → extract_text_raw E fs p = "")
    ∧ (fs.lookup (resolve TARGET_DIRECTORY filename) = some content →
        suffixOfPath (resolve TARGET_DIRECTORY filename) = ".pdf" →
        E.pdfPagesOf content = none → read_file_content E fs filename = "")
    ∧ (fs.lookup (resolve TARGET_DIRECTORY filename) = some content →
        (suffixOfPath (resolve TARGET_DIRECTORY filename) = ".html"
          ∨ suffixOfPath (resolve TARGET_DIRECTORY filename) = ".htm") →
        E.htmlTextOf content = none → read_file_content E fs filename = "") := by
  refine ⟨?_, ?_, ?_⟩
  · intro h
    unfold extract_text_raw
    rw [h]
  · intro hc hpdf hp
    rw [read_eq_extract E fs filename content hc]
    unfold extract_text_raw
    rw [hc]
    simp [hpdf, hp]
  · intro hc hhtml ht
    rw [read_eq_extract E fs filename content hc]
    unfold extract_text_raw
    rw [hc]
    have hnpdf : suffixOfPath (resolve TARGET_DIRECTORY filename) ≠ ".pdf" := by
      rcases hhtml with h | h <;> rw [h] <;> decide
    simp [hnpdf, hhtml, ht]

/-- Claim C10, witness: reading an existing but unparseable PDF returns "". -/
theorem c10_extraction_never_raises_witness :
    read_file_content demoExtractors corruptFS "quebrado.pdf" = "" :=
  (c10_extraction_never_raises demoExtractors corruptFS [] "quebrado.pdf"
      "isto nao e um pdf").2.1 (by decide) (by decide) (by decide)

end LegalAgent
